import Mathlib

/-!
Verification development for the distributed file system repository
(Name Server / Storage Server / client).  The definitions below are a
shallow embedding of the C source under `src/`:

* sentence/word parsing and joining from `src/storageserver/ss_file_manager.c`
  (`ss_split_sentences`, `ss_split_words`, `ss_join_words`, `ss_join_sentences`),
* the WRITE-transaction validation and data-collection phases, UNDO,
  CHECKPOINT, DELETE and READ handlers from the same file,
* the NS LRU cache from `src/nameserver/ns_cache.c`,
* the access-table update path from `src/nameserver/ns_handler.c` /
  `ns_access.c`,
* the file-to-SS resolution from `src/nameserver/ns_ss_manager.c`.

Strings from the C code are modelled as `List Char` (`Str` below); file
contents are byte strings modelled the same way.  Stateful handlers are
modelled as explicit state-passing functions over small state records.
-/

/-- Byte/character strings of the C code, modelled as lists of characters. -/
abbrev Str := List Char

/-- The sentence delimiters of the storage engine: `.`, `!`, `?`
(`ss_file_manager.c`, checks of the form `*ptr == '.' || *ptr == '!' || *ptr == '?'`). -/
def isDelim (c : Char) : Bool := c = '.' || c = '!' || c = '?'

/-- C `isspace`: space, tab, newline, vertical tab, form feed, carriage return. -/
def isSpaceC (c : Char) : Bool :=
  c = ' ' || c = '\t' || c = '\n' || c = '\x0b' || c = '\x0c' || c = '\r'

/-- `MAX_PAYLOAD` from the protocol header: 4096 bytes. -/
def MAX_PAYLOAD : Nat := 4096

/-- Loop of `ss_split_sentences`: scan the text, emitting the accumulated
characters (plus the delimiter) whenever a delimiter is reached.  `acc` holds
the current sentence in reverse.  At the end of the text, the trailing
fragment is kept only if it is nonempty after trimming leading whitespace
(the `start < ptr && strlen(start) > 0` / `isspace` trim in the C code). -/
def splitSentencesGo : List Char → List Char → List Str
  | [], acc =>
      let trimmed := acc.reverse.dropWhile isSpaceC
      if trimmed.isEmpty then [] else [trimmed]
  | c :: rest, acc =>
      if isDelim c then (acc.reverse ++ [c]) :: splitSentencesGo rest []
      else splitSentencesGo rest (c :: acc)

/-- `ss_split_sentences` (ss_file_manager.c:171-208): split text into
sentences; each sentence ends at a delimiter which is part of the sentence;
a trailing fragment without delimiter is kept after trimming leading
whitespace, and dropped if it is whitespace-only. -/
def ss_split_sentences (text : Str) : List Str := splitSentencesGo text []

/-- Loop of `ss_split_words`: `cur` holds the current word in reverse.
Whitespace ends the current word; a delimiter ends the current word and is
emitted as its own single-character word; a word is capped at `MAX_PAYLOAD`
characters (the `word_len < MAX_PAYLOAD` guard in the C code). -/
def splitWordsGo : List Char → List Char → List Str
  | [], cur => if cur.isEmpty then [] else [cur.reverse]
  | c :: rest, cur =>
      if isSpaceC c then
        if cur.isEmpty then splitWordsGo rest []
        else cur.reverse :: splitWordsGo rest []
      else if isDelim c then
        if cur.isEmpty then [c] :: splitWordsGo rest []
        else cur.reverse :: [c] :: splitWordsGo rest []
      else
        splitWordsGo rest (if cur.length < MAX_PAYLOAD then c :: cur else cur)

/-- `ss_split_words` (ss_file_manager.c:218-269): split a sentence into
whitespace-separated words, each delimiter character being its own word. -/
def ss_split_words (sentence : Str) : List Str := splitWordsGo sentence []

/-- A "delimiter word" in the joining code: `strlen(w) == 1` and the single
character is `.`, `!` or `?`. -/
def isDelimWord (w : Str) : Bool :=
  match w with
  | [c] => isDelim c
  | _ => false

/-- `ss_join_words` (ss_file_manager.c:279-310): concatenate the words,
inserting a single space before the next word unless that next word is a
delimiter word.  This is the direct recursive reading of the C `strcat`
loop over `i` with its `i < num_words - 1` lookahead test. -/
def ss_join_words : List Str → Str
  | [] => []
  | [w] => w
  | w :: w2 :: rest =>
      w ++ (if isDelimWord w2 then [] else [' ']) ++ ss_join_words (w2 :: rest)

/-- `ss_join_sentences` (ss_file_manager.c:312-325): concatenate all
sentences with no separator (a plain `strcat` loop, modelled as a fold). -/
def ss_join_sentences (sentences : List Str) : Str :=
  sentences.foldl (· ++ ·) []

/-- The word-joining rule as the specification states it: the first word is
emitted as is, and every subsequent word is preceded by exactly one space
unless it is one of the single-character delimiter words. -/
def joinWordsSpec : List Str → Str
  | [] => []
  | w :: rest =>
      w ++ (rest.map (fun v => (if isDelimWord v then [] else [' ']) ++ v)).flatten

lemma ss_join_sentences_go (acc : Str) (l : List Str) :
    l.foldl (· ++ ·) acc = acc ++ l.flatten := by
  induction l generalizing acc with
  | nil => simp
  | cons s rest ih => simp [List.foldl_cons, ih, List.append_assoc]

lemma ss_join_words_eq_spec (ws : List Str) : ss_join_words ws = joinWordsSpec ws := by
  induction ws with
  | nil => rfl
  | cons w rest ih =>
    cases rest with
    | nil => simp [ss_join_words, joinWordsSpec]
    | cons w2 rest2 =>
      simp only [ss_join_words, joinWordsSpec] at ih ⊢
      rw [ih]
      simp [List.append_assoc]

/-- Claim C7: joining sentences concatenates them with no separator, and
joining words inserts exactly one space between consecutive words except
that no space is inserted immediately before a word that is exactly one of
the single-character delimiter words ".", "!", "?". -/
theorem c7_joining_rules (sentences words : List Str) :
    ss_join_sentences sentences = sentences.flatten ∧
    ss_join_words words = joinWordsSpec words := by
  constructor
  · simpa using ss_join_sentences_go [] sentences
  · exact ss_join_words_eq_spec words

/-!
## WRITE transaction: sentence-index validation (claim C1)

`ss_handle_write_transaction` (ss_file_manager.c:939-988) validates the
requested sentence index against the sentences parsed from the swap copy.
Every rejection path sends an error, unlinks the swap file and unlocks the
sentence mutex; the acceptance path replies WRITE_OK keeping both.
-/

/-- Whether a sentence ends with a delimiter: the C check
`len == 0 || last char not in {. ! ?}` inverted. -/
def endsWithDelim (s : Str) : Bool :=
  match s.getLast? with
  | some c => isDelim c
  | none => false

/-- Outcome of the sentence-index validation step of the WRITE transaction:
whether WRITE_OK was sent, and whether the rejection path removed the swap
file and released the sentence lock. -/
structure WriteValidation where
  accepted : Bool
  swapRemoved : Bool
  lockReleased : Bool
  deriving DecidableEq, Repr

/-- Sentence-index validation of `ss_handle_write_transaction`
(ss_file_manager.c:939-988), applied to the content of the swap copy:
negative indices and indices above `num_sentences` are rejected;
`N == num_sentences` is accepted only when there are no sentences at all
or the last sentence ends with a delimiter; on every rejection the swap
file is unlinked and the sentence lock released before returning. -/
def ss_write_validate (n : Int) (content : Str) : WriteValidation :=
  if n < 0 then ⟨false, true, true⟩
  else if n > ((ss_split_sentences content).length : Int) then ⟨false, true, true⟩
  else if n = ((ss_split_sentences content).length : Int) then
    if (ss_split_sentences content).length = 0 then ⟨true, false, false⟩
    else if endsWithDelim ((ss_split_sentences content).getLastD []) then ⟨true, false, false⟩
    else ⟨false, true, true⟩
  else ⟨true, false, false⟩

/-- The acceptance condition exactly as claim C1 words it: `0 ≤ N < num`,
or `N = num` and the file is empty, or `N = num` and the last existing
sentence ends with a delimiter. -/
def c1ClaimedAccept (n : Int) (content : Str) : Prop :=
  let num : Int := (ss_split_sentences content).length
  (0 ≤ n ∧ n < num) ∨
  (n = num ∧ content = []) ∨
  (n = num ∧ (ss_split_sentences content).length ≠ 0 ∧
    endsWithDelim ((ss_split_sentences content).getLastD []) = true)

instance (n : Int) (content : Str) : Decidable (c1ClaimedAccept n content) := by
  unfold c1ClaimedAccept; infer_instance

/-- Counterexample to claim C1 as stated: a whitespace-only file (one space)
parses to zero sentences, so the code accepts `N = 0 = num_sentences` even
though the file is not empty and there is no last sentence ending with a
delimiter. -/
theorem c1_counterexample :
    (ss_write_validate 0 [' ']).accepted = true ∧ ¬ c1ClaimedAccept 0 [' '] := by
  decide

/-- Claim C1 (amended): the server accepts N iff `0 ≤ N < num_sentences`,
or `N = num_sentences` and the parse produced zero sentences (empty or
whitespace-only file), or `N = num_sentences` and the last sentence ends
with a delimiter; on every rejection the swap file is removed and the
sentence lock released. -/
theorem c1_write_index_validation (n : Int) (content : Str) :
    ((ss_write_validate n content).accepted = true ↔
      ((0 ≤ n ∧ n < ((ss_split_sentences content).length : Int)) ∨
       (n = ((ss_split_sentences content).length : Int) ∧
         (ss_split_sentences content).length = 0) ∨
       (n = ((ss_split_sentences content).length : Int) ∧
         (ss_split_sentences content).length ≠ 0 ∧
         endsWithDelim ((ss_split_sentences content).getLastD []) = true))) ∧
    ((ss_write_validate n content).accepted = false →
      (ss_write_validate n content).swapRemoved = true ∧
      (ss_write_validate n content).lockReleased = true) := by
  unfold ss_write_validate
  set sentences := ss_split_sentences content with hs
  by_cases h1 : n < 0
  · rw [if_pos h1]
    refine ⟨⟨fun h => absurd h (by decide), ?_⟩, fun _ => ⟨rfl, rfl⟩⟩
    rintro (⟨h0, _⟩ | ⟨he, _⟩ | ⟨he, _, _⟩) <;> omega
  · rw [if_neg h1]
    by_cases h2 : n > (sentences.length : Int)
    · rw [if_pos h2]
      refine ⟨⟨fun h => absurd h (by decide), ?_⟩, fun _ => ⟨rfl, rfl⟩⟩
      rintro (⟨_, hlt⟩ | ⟨he, _⟩ | ⟨he, _, _⟩) <;> omega
    · rw [if_neg h2]
      by_cases h3 : n = (sentences.length : Int)
      · rw [if_pos h3]
        by_cases h4 : sentences.length = 0
        · rw [if_pos h4]
          exact ⟨⟨fun _ => Or.inr (Or.inl ⟨h3, h4⟩), fun _ => rfl⟩,
                 fun h => absurd h (by decide)⟩
        · rw [if_neg h4]
          by_cases h5 : endsWithDelim (sentences.getLastD []) = true
          · rw [if_pos h5]
            exact ⟨⟨fun _ => Or.inr (Or.inr ⟨h3, h4, h5⟩), fun _ => rfl⟩,
                   fun h => absurd h (by decide)⟩
          · rw [if_neg h5]
            refine ⟨⟨fun h => absurd h (by decide), ?_⟩, fun _ => ⟨rfl, rfl⟩⟩
            rintro (⟨_, hlt⟩ | ⟨_, he⟩ | ⟨_, hne, hd⟩)
            · omega
            · exact absurd he h4
            · exact absurd hd h5
      · rw [if_neg h3]
        have h3' : n < (sentences.length : Int) := by omega
        exact ⟨⟨fun _ => Or.inl ⟨by omega, h3'⟩, fun _ => rfl⟩,
               fun h => absurd h (by decide)⟩

/-- Witness for C1 at concrete inputs: for the file "a." (one sentence),
index 0 is accepted and index 2 is rejected with the swap file removed. -/
theorem c1_write_index_validation_witness :
    (ss_write_validate 0 "a.".data).accepted = true ∧
    (ss_write_validate 2 "a.".data).swapRemoved = true := by
  constructor
  · exact (c1_write_index_validation 0 "a.".data).1.mpr (by decide)
  · exact ((c1_write_index_validation 2 "a.".data).2 (by decide)).1

/-!
## UNDO (claim C2)

`ss_handle_undo` (ss_file_manager.c:623-702) swaps `files/F` and `undo/F`
through a temporary name using three renames; if `undo/F` does not exist it
fails with "No undo history for this file" leaving everything unchanged.
State is the pair of optional byte contents of the two paths.
-/

/-- Contents of `files/F` and `undo/F` for one file F (`none` = the path
does not exist). -/
structure UndoState where
  files : Option Str
  undo : Option Str
  deriving DecidableEq, Repr

/-- Result of an UNDO request: either success or an error message, along
with the resulting on-disk state. -/
inductive UndoResult where
  | ok (s : UndoState)
  | err (msg : Str) (s : UndoState)
  deriving DecidableEq, Repr

/-- `ss_handle_undo` (ss_file_manager.c:623-702): fail with "No undo history
for this file" when `undo/F` is missing; otherwise rename `files/F` to a
temporary name (failing, with rollback to the unchanged state, when
`files/F` is missing), rename `undo/F` to `files/F`, and the temporary to
`undo/F` — i.e. exchange the two contents. -/
def ss_handle_undo (s : UndoState) : UndoResult :=
  match s.undo with
  | none => .err ("No undo history for this file".data) s
  | some u =>
    match s.files with
    | none => .err ("Undo failed (step 1)".data) s
    | some f => .ok ⟨some u, some f⟩

/-- Claim C2: when an undo slot exists, one successful UNDO exchanges
`files/F` and `undo/F`; two UNDOs with no mutation in between restore both
to their original contents; without an undo slot, UNDO fails with
"No undo history for this file" and `files/F` is unchanged. -/
theorem c2_undo_period_two (s : UndoState) (f u : Str)
    (hf : s.files = some f) (hu : s.undo = some u) :
    ss_handle_undo s = .ok ⟨some u, some f⟩ ∧
    ss_handle_undo ⟨some u, some f⟩ = .ok s ∧
    (∀ t : UndoState, t.undo = none →
      ss_handle_undo t = .err ("No undo history for this file".data) t ∧
      (match ss_handle_undo t with
       | .ok s' => s'.files
       | .err _ s' => s'.files) = t.files) := by
  refine ⟨?_, ?_, ?_⟩
  · simp [ss_handle_undo, hf, hu]
  · have : s = ⟨some f, some u⟩ := by cases s; simp_all
    rw [this]; rfl
  · intro t ht
    constructor
    · simp [ss_handle_undo, ht]
    · simp [ss_handle_undo, ht]

/-- Witness for C2 at a concrete state: `files/F = "b."`, `undo/F = "a."`. -/
theorem c2_undo_period_two_witness :
    ss_handle_undo ⟨some "b.".data, some "a.".data⟩ =
      .ok ⟨some "a.".data, some "b.".data⟩ ∧
    ss_handle_undo ⟨some "a.".data, some "b.".data⟩ =
      .ok ⟨some "b.".data, some "a.".data⟩ :=
  ⟨(c2_undo_period_two ⟨some "b.".data, some "a.".data⟩ "b.".data "a.".data rfl rfl).1,
   (c2_undo_period_two ⟨some "b.".data, some "a.".data⟩ "b.".data "a.".data rfl rfl).2.1⟩

/-!
## CHECKPOINT creation (claim C4)

`ss_handle_checkpoint` (ss_file_manager.c:704-728), CHECKPOINT branch:
`access(checkpath, F_OK)` guards against overwriting an existing tag, then
`_copy_file(filepath, checkpath)` copies `files/F` byte for byte (it opens
the source before creating the destination, so a failed copy of a missing
source creates nothing).
-/

/-- On-disk state relevant to CHECKPOINT of one file: the content of
`files/F` (if present) and the checkpoint directory as a list of
(entry name, content) pairs. -/
structure CheckpointState where
  fileContent : Option Str
  checkpoints : List (Str × Str)
  deriving DecidableEq, Repr

/-- The checkpoint entry name `<filename>_<tag>` built by
`snprintf(checkpath, "%s/%s_%s", SS_CHECKPOINT_DIR, filename, tag)`. -/
def ckName (f tag : Str) : Str := f ++ '_' :: tag

/-- Whether `checkpoints/<f>_<tag>` exists (the `access(checkpath, F_OK)`
test). -/
def ckExists (s : CheckpointState) (f tag : Str) : Bool :=
  s.checkpoints.any (fun p => p.1 == ckName f tag)

/-- Content of the checkpoint entry named `<f>_<tag>`, if any. -/
def ckLookup (s : CheckpointState) (f tag : Str) : Option Str :=
  (s.checkpoints.find? (fun p => p.1 == ckName f tag)).map Prod.snd

/-- Response to a CHECKPOINT request. -/
inductive CkResult where
  | ok (msg : Str)
  | err (msg : Str)
  deriving DecidableEq, Repr

/-- CHECKPOINT branch of `ss_handle_checkpoint` (ss_file_manager.c:709-728):
fail without touching anything when the tag already exists; otherwise copy
`files/F` to `checkpoints/F_<tag>` (failing when `files/F` is missing,
creating nothing). -/
def ss_handle_checkpoint_create (f tag : Str) (s : CheckpointState) :
    CkResult × CheckpointState :=
  if ckExists s f tag then
    (.err ("Checkpoint tag already exists".data), s)
  else
    match s.fileContent with
    | none => (.err ("Failed to create checkpoint".data), s)
    | some c => (.ok ("Checkpoint created".data),
                 { s with checkpoints := (ckName f tag, c) :: s.checkpoints })

/-- Claim C4: for a file F whose content is present, CHECKPOINT with tag T
succeeds and creates `checkpoints/F_<T>` as a byte-for-byte copy of
`files/F` iff no checkpoint with tag T exists for F; when the tag exists
the request fails and the state — in particular the existing checkpoint —
is unchanged. -/
theorem c4_checkpoint_uniqueness (f tag c : Str) (s : CheckpointState)
    (hc : s.fileContent = some c) :
    (ckExists s f tag = false →
      ss_handle_checkpoint_create f tag s =
        ((.ok ("Checkpoint created".data)),
         { s with checkpoints := (ckName f tag, c) :: s.checkpoints }) ∧
      ckLookup (ss_handle_checkpoint_create f tag s).2 f tag = some c) ∧
    (ckExists s f tag = true →
      (ss_handle_checkpoint_create f tag s).1 =
        .err ("Checkpoint tag already exists".data) ∧
      (ss_handle_checkpoint_create f tag s).2 = s) := by
  constructor
  · intro hno
    have h1 : ss_handle_checkpoint_create f tag s =
        ((.ok ("Checkpoint created".data)),
         { s with checkpoints := (ckName f tag, c) :: s.checkpoints }) := by
      simp [ss_handle_checkpoint_create, hno, hc]
    refine ⟨h1, ?_⟩
    rw [h1]
    simp [ckLookup, List.find?_cons]
  · intro hyes
    simp [ss_handle_checkpoint_create, hyes]

/-- Witness for C4: a file with content "x." and one existing checkpoint
tag "v1"; a fresh tag "v2" succeeds, the existing tag "v1" fails. -/
theorem c4_checkpoint_uniqueness_witness :
    (ss_handle_checkpoint_create "f".data "v2".data
        ⟨some "x.".data, [(ckName "f".data "v1".data, "old.".data)]⟩).1 =
      .ok ("Checkpoint created".data) ∧
    (ss_handle_checkpoint_create "f".data "v1".data
        ⟨some "x.".data, [(ckName "f".data "v1".data, "old.".data)]⟩).1 =
      .err ("Checkpoint tag already exists".data) := by
  have s1 := c4_checkpoint_uniqueness "f".data "v2".data "x.".data
      ⟨some "x.".data, [(ckName "f".data "v1".data, "old.".data)]⟩ rfl
  have s2 := c4_checkpoint_uniqueness "f".data "v1".data "x.".data
      ⟨some "x.".data, [(ckName "f".data "v1".data, "old.".data)]⟩ rfl
  exact ⟨by rw [(s1.1 (by decide)).1], (s2.2 (by decide)).1⟩

/-!
## DELETE (claim C5)

`ss_handle_delete_file` (ss_file_manager.c:358-438): a swap-directory entry
whose name starts with `<F>_swap_` blocks the deletion; otherwise
`files/F` is unlinked (failure leaves everything else untouched), `undo/F`
is unlinked best-effort, every checkpoint entry starting with `<F>_` is
unlinked, and the metadata entry is removed.
-/

/-- On-disk and metadata state relevant to DELETE of one file F:
the names in `swap/`, the contents of `files/F` and `undo/F`, the
checkpoint directory entries, and whether F's metadata entry exists. -/
structure DeleteState where
  swapEntries : List Str
  fileContent : Option Str
  undoContent : Option Str
  checkpointEntries : List (Str × Str)
  metaPresent : Bool
  deriving DecidableEq, Repr

/-- The swap-name pattern `<F>_swap_` from
`snprintf(swap_prefix, "%s_swap_", filename)`. -/
def swapPat (f : Str) : Str := f ++ "_swap_".data

/-- Whether some swap-directory entry starts with `<F>_swap_`
(the `strncmp(entry->d_name, swap_prefix, prefix_len) == 0` scan). -/
def hasSwapfile (f : Str) (entries : List Str) : Bool :=
  entries.any (fun name => (swapPat f).isPrefixOf name)

/-- `ss_handle_delete_file` (ss_file_manager.c:358-438): refuse when a
swapfile for F exists; otherwise unlink `files/F` (error if missing,
nothing else touched), best-effort unlink `undo/F`, unlink every
checkpoint entry whose name starts with `<F>_`, and drop the metadata
entry. -/
def ss_handle_delete_file (f : Str) (s : DeleteState) : CkResult × DeleteState :=
  if hasSwapfile f s.swapEntries then
    (.err ("Cannot delete file - WRITE operation in progress".data), s)
  else
    match s.fileContent with
    | none => (.err ("Failed to delete file".data), s)
    | some _ =>
        (.ok ("File deleted".data),
         { swapEntries := s.swapEntries,
           fileContent := none,
           undoContent := none,
           checkpointEntries :=
             s.checkpointEntries.filter (fun p => !((f ++ ['_']).isPrefixOf p.1)),
           metaPresent := false })

/-- Claim C5: when a swap entry matching `<F>_swap_*` exists, DELETE fails
with "Cannot delete file - WRITE operation in progress" and leaves
`files/F`, `undo/F`, the checkpoints and the metadata entry unchanged;
only when no such entry exists (and `files/F` is present) does it remove
`files/F`, `undo/F`, every checkpoint entry matching `<F>_*` and the
metadata entry. -/
theorem c5_delete_blocked_by_swapfile (f : Str) (s : DeleteState) :
    (hasSwapfile f s.swapEntries = true →
      ss_handle_delete_file f s =
        (.err ("Cannot delete file - WRITE operation in progress".data), s)) ∧
    (hasSwapfile f s.swapEntries = false → ∀ c, s.fileContent = some c →
      ss_handle_delete_file f s =
        (.ok ("File deleted".data),
         { swapEntries := s.swapEntries,
           fileContent := none,
           undoContent := none,
           checkpointEntries :=
             s.checkpointEntries.filter (fun p => !((f ++ ['_']).isPrefixOf p.1)),
           metaPresent := false })) := by
  constructor
  · intro hyes
    simp [ss_handle_delete_file, hyes]
  · intro hno c hc
    simp [ss_handle_delete_file, hno, hc]

/-- Witness for C5: with an in-flight swapfile `f_swap_0` the deletion of
"f" is refused; with an empty swap directory it succeeds and removes the
file, the undo slot, the checkpoint `f_v1` and the metadata entry. -/
theorem c5_delete_blocked_by_swapfile_witness :
    ss_handle_delete_file "f".data
        ⟨["f_swap_0".data], some "x.".data, some "y.".data,
         [(ckName "f".data "v1".data, "x.".data)], true⟩ =
      (.err ("Cannot delete file - WRITE operation in progress".data),
       ⟨["f_swap_0".data], some "x.".data, some "y.".data,
        [(ckName "f".data "v1".data, "x.".data)], true⟩) ∧
    ss_handle_delete_file "f".data
        ⟨[], some "x.".data, some "y.".data,
         [(ckName "f".data "v1".data, "x.".data)], true⟩ =
      (.ok ("File deleted".data), ⟨[], none, none, [], false⟩) := by
  constructor
  · exact (c5_delete_blocked_by_swapfile "f".data _).1 (by decide)
  · have h := (c5_delete_blocked_by_swapfile "f".data
      ⟨[], some "x.".data, some "y.".data,
       [(ckName "f".data "v1".data, "x.".data)], true⟩).2 (by decide)
      "x.".data rfl
    rw [h]
    decide

/-!
## WRITE transaction: data-collection phase (claim C6)

`ss_handle_write_transaction` (ss_file_manager.c:1004-1072): each
WRITE_DATA `{word_index, content}` is validated against the working
sentence's current word count; an out-of-range index produces an error for
that subquery only and the loop continues; an in-range one splits the
content into words and splices them at `word_index` (realloc + memmove).
-/

/-- Apply one WRITE_DATA message to the working word list
(ss_file_manager.c:1033-1067): reject `word_index < 0` or
`word_index > num_words` without touching the list; otherwise split the
content into words and insert them at `word_index`, shifting later words
right. -/
def ss_write_apply_data (words : List Str) (wordIndex : Int) (content : Str) :
    Except Str (List Str) :=
  if wordIndex < 0 || wordIndex > (words.length : Int) then
    .error ("Invalid word index".data)
  else
    .ok (words.take wordIndex.toNat ++ ss_split_words content ++
         words.drop wordIndex.toNat)

/-- The WRITE_DATA receive loop (ss_file_manager.c:1009-1072) folded over
the list of incoming `{word_index, content}` messages: an erroneous
subquery leaves the word list unchanged and the loop continues with the
next message. -/
def ss_write_data_phase (words : List Str) : List (Int × Str) → List Str
  | [] => words
  | (i, c) :: rest =>
    match ss_write_apply_data words i c with
    | .error _ => ss_write_data_phase words rest
    | .ok w' => ss_write_data_phase w' rest

/-- Claim C6: during data collection, a WRITE_DATA with `word_index`
outside `0 ≤ word_index ≤ num_words` yields an error for that subquery
only — the word list is unchanged and the transaction keeps processing
later messages; an in-range WRITE_DATA splices the content's words at
`word_index`, shifting later words right and growing `num_words` by the
number of inserted words. -/
theorem c6_write_data_validation (words : List Str) (i : Int) (c : Str)
    (rest : List (Int × Str)) :
    (¬(0 ≤ i ∧ i ≤ (words.length : Int)) →
      ss_write_apply_data words i c = .error ("Invalid word index".data) ∧
      ss_write_data_phase words ((i, c) :: rest) = ss_write_data_phase words rest) ∧
    (0 ≤ i ∧ i ≤ (words.length : Int) →
      ss_write_apply_data words i c =
        .ok (words.take i.toNat ++ ss_split_words c ++ words.drop i.toNat) ∧
      (words.take i.toNat ++ ss_split_words c ++ words.drop i.toNat).length =
        words.length + (ss_split_words c).length ∧
      ss_write_data_phase words ((i, c) :: rest) =
        ss_write_data_phase
          (words.take i.toNat ++ ss_split_words c ++ words.drop i.toNat) rest) := by
  constructor
  · intro hbad
    have hcond : (i < 0 || i > (words.length : Int)) = true := by
      rcases not_and_or.mp hbad with h | h <;> simp [not_le.mp h]
    have happly : ss_write_apply_data words i c = .error ("Invalid word index".data) := by
      simp [ss_write_apply_data, hcond]
    exact ⟨happly, by simp [ss_write_data_phase, happly]⟩
  · rintro ⟨h0, hle⟩
    have hcond : (i < 0 || i > (words.length : Int)) = false := by
      simp; omega
    have happly : ss_write_apply_data words i c =
        .ok (words.take i.toNat ++ ss_split_words c ++ words.drop i.toNat) := by
      simp only [ss_write_apply_data, hcond, Bool.false_eq_true, if_false]
    refine ⟨happly, ?_, by simp [ss_write_data_phase, happly]⟩
    have hto : i.toNat ≤ words.length := by omega
    simp [List.length_take, List.length_drop, Nat.min_eq_left hto]
    omega

/-- Witness for C6: working sentence `["Hi", "."]`; index 5 is rejected and
skipped, index 1 splices the two words of "there you". -/
theorem c6_write_data_validation_witness :
    ss_write_apply_data ["Hi".data, ".".data] 5 "x".data =
      .error ("Invalid word index".data) ∧
    ss_write_data_phase ["Hi".data, ".".data] [(5, "x".data)] = ["Hi".data, ".".data] ∧
    ss_write_apply_data ["Hi".data, ".".data] 1 "there you".data =
      .ok ["Hi".data, "there".data, "you".data, ".".data] := by
  have h2 := (c6_write_data_validation ["Hi".data, ".".data] 5 "x".data []).1
    (by decide)
  have h3 := (c6_write_data_validation ["Hi".data, ".".data] 1 "there you".data []).2
    (by decide)
  refine ⟨h2.1, ?_, ?_⟩
  · rw [h2.2]; rfl
  · rw [h3.1]; rfl

/-!
## READ chunking (claim C10)

`ss_handle_read` (ss_file_manager.c:515-581): the file is streamed in
`fread` chunks of up to `MAX_PAYLOAD` bytes; a chunk is flagged final
exactly when `fread` returned fewer than `MAX_PAYLOAD` bytes, and the loop
stops after a final chunk; if no data chunk was sent at all (empty file),
one empty final chunk is sent.
-/

/-- The `fread`/send loop of `ss_handle_read`: each step consumes
`min remaining MAX_PAYLOAD` bytes, emits `(data_len, is_final_chunk)` with
`is_final_chunk = (data_len < MAX_PAYLOAD)`, and stops after a final chunk
or when `fread` returns 0. -/
def readChunksLoop (l : Str) : List (Nat × Bool) :=
  if l.length = 0 then []
  else if l.length < MAX_PAYLOAD then [(l.length, true)]
  else (MAX_PAYLOAD, false) :: readChunksLoop (l.drop MAX_PAYLOAD)
termination_by l.length
decreasing_by
  simp only [List.length_drop]
  have : 0 < MAX_PAYLOAD := by decide
  omega

/-- The chunk sequence sent by `ss_handle_read` for a file with the given
content: the loop's chunks, or one empty final chunk when the loop sent
nothing (`sent_data == false`). -/
def ss_read_chunks (content : Str) : List (Nat × Bool) :=
  let cs := readChunksLoop content
  if cs.isEmpty then [(0, true)] else cs


lemma readChunksLoop_multiple (l : Str) (hpos : 0 < l.length)
    (hmod : l.length % MAX_PAYLOAD = 0) :
    readChunksLoop l = List.replicate (l.length / MAX_PAYLOAD) (MAX_PAYLOAD, false) := by
  have hM : MAX_PAYLOAD = 4096 := rfl
  have hmod4 : l.length % 4096 = 0 := by rw [hM] at hmod; exact hmod
  have hge : 4096 ≤ l.length := by
    rcases Nat.lt_or_ge l.length 4096 with h | h
    · have := Nat.mod_eq_of_lt h; omega
    · exact h
  rw [readChunksLoop, if_neg (by omega), if_neg (by rw [hM]; omega)]
  have hlen : (l.drop MAX_PAYLOAD).length = l.length - 4096 := by
    rw [List.length_drop, hM]
  by_cases hzero : (l.drop MAX_PAYLOAD).length = 0
  · rw [readChunksLoop, if_pos hzero]
    rw [hlen] at hzero
    have hdiv : l.length / MAX_PAYLOAD = 1 := by rw [hM]; omega
    rw [hdiv]
    rfl
  · have hpos2 : 0 < (l.drop MAX_PAYLOAD).length := Nat.pos_of_ne_zero hzero
    have hmod2 : (l.drop MAX_PAYLOAD).length % MAX_PAYLOAD = 0 := by
      rw [hlen, hM]; omega
    rw [readChunksLoop_multiple (l.drop MAX_PAYLOAD) hpos2 hmod2]
    have hdiv : l.length / MAX_PAYLOAD =
        (l.drop MAX_PAYLOAD).length / MAX_PAYLOAD + 1 := by
      rw [hlen, hM]; omega
    rw [hdiv, List.replicate_succ]
termination_by l.length
decreasing_by
  simp only [List.length_drop]
  have hM2 : MAX_PAYLOAD = 4096 := rfl
  omega

lemma readChunksLoop_last_final (l : Str) (hpos : 0 < l.length)
    (hmod : l.length % MAX_PAYLOAD ≠ 0) :
    ∃ n, (readChunksLoop l).getLast? = some (n, true) := by
  have hM : MAX_PAYLOAD = 4096 := rfl
  have hmod4 : l.length % 4096 ≠ 0 := by rw [hM] at hmod; exact hmod
  rw [readChunksLoop, if_neg (by omega)]
  by_cases hlt : l.length < MAX_PAYLOAD
  · rw [if_pos hlt]
    exact ⟨l.length, rfl⟩
  · rw [if_neg hlt]
    rw [hM] at hlt
    have hlen : (l.drop MAX_PAYLOAD).length = l.length - 4096 := by
      rw [List.length_drop, hM]
    have hpos2 : 0 < (l.drop MAX_PAYLOAD).length := by rw [hlen]; omega
    have hmod2 : (l.drop MAX_PAYLOAD).length % MAX_PAYLOAD ≠ 0 := by
      rw [hlen, hM]; omega
    obtain ⟨n, hn⟩ := readChunksLoop_last_final (l.drop MAX_PAYLOAD) hpos2 hmod2
    refine ⟨n, ?_⟩
    rcases hx : readChunksLoop (l.drop MAX_PAYLOAD) with _ | ⟨x, xs⟩
    · rw [hx] at hn; simp at hn
    · rw [hx] at hn
      rw [List.getLast?_cons_cons]
      exact hn
termination_by l.length
decreasing_by
  simp only [List.length_drop]
  have hM2 : MAX_PAYLOAD = 4096 := rfl
  omega

/-- Claim C10: a non-empty file whose size is an exact multiple of
`MAX_PAYLOAD` is sent as exactly `size / MAX_PAYLOAD` full chunks, all
with `is_final_chunk = false` and none final; any other file's last chunk
carries `is_final_chunk = true` (the empty file gets one empty final
chunk). -/
theorem c10_read_final_chunk (content : Str) :
    (0 < content.length → content.length % MAX_PAYLOAD = 0 →
      ss_read_chunks content =
        List.replicate (content.length / MAX_PAYLOAD) (MAX_PAYLOAD, false)) ∧
    (¬(0 < content.length ∧ content.length % MAX_PAYLOAD = 0) →
      ∃ n, (ss_read_chunks content).getLast? = some (n, true)) := by
  have hM : MAX_PAYLOAD = 4096 := rfl
  constructor
  · intro hpos hmod
    have h := readChunksLoop_multiple content hpos hmod
    have hk : 0 < content.length / MAX_PAYLOAD := by
      rw [hM]
      rw [hM] at hmod
      rcases Nat.lt_or_ge content.length 4096 with hc | hc
      · have := Nat.mod_eq_of_lt hc; omega
      · omega
    have hne : (readChunksLoop content).isEmpty = false := by
      rw [h]
      rcases hq : content.length / MAX_PAYLOAD with _ | k
      · omega
      · rw [List.replicate_succ]; rfl
    simp only [ss_read_chunks, hne, Bool.false_eq_true, if_false]
    exact h
  · intro hother
    by_cases hz : content.length = 0
    · have h0 : readChunksLoop content = [] := by rw [readChunksLoop, if_pos hz]
      simp only [ss_read_chunks, h0]
      exact ⟨0, rfl⟩
    · have hpos : 0 < content.length := Nat.pos_of_ne_zero hz
      have hmod : content.length % MAX_PAYLOAD ≠ 0 := by
        intro h; exact hother ⟨hpos, h⟩
      obtain ⟨n, hn⟩ := readChunksLoop_last_final content hpos hmod
      have hne : (readChunksLoop content).isEmpty = false := by
        rcases hx : readChunksLoop content with _ | ⟨x, xs⟩
        · rw [hx] at hn; simp at hn
        · rfl
      simp only [ss_read_chunks, hne, Bool.false_eq_true, if_false]
      exact ⟨n, hn⟩

/-- Witness for C10: a 4096-byte file is sent as one full non-final chunk
and never a final one; a 1-byte file's only chunk is final; the empty file
gets the empty final chunk. -/
theorem c10_read_final_chunk_witness :
    ss_read_chunks (List.replicate MAX_PAYLOAD 'a') = [(MAX_PAYLOAD, false)] ∧
    (∃ n, (ss_read_chunks ['a']).getLast? = some (n, true)) ∧
    (∃ n, (ss_read_chunks []).getLast? = some (n, true)) := by
  refine ⟨?_, ?_, ?_⟩
  · have h := (c10_read_final_chunk (List.replicate MAX_PAYLOAD 'a')).1
      (by rw [List.length_replicate]; decide) (by rw [List.length_replicate]; decide)
    rw [h, List.length_replicate, Nat.div_self (by decide)]
    rfl
  · exact (c10_read_final_chunk ['a']).2 (by decide)
  · exact (c10_read_final_chunk []).2 (by decide)

/-!
## NS LRU cache (claim C9)

`ns_cache.c`: the cache is a hash table plus a doubly linked list ordered
MRU (head) to LRU (tail).  The abstract state is that ordered list of
(key, value) nodes — detaching a node and re-attaching it at the front is
erasing it from the list and consing it; evicting the tail is dropping the
last element.  Values are the `StorageServer*` pointers stored by
`find_ss_for_file`, modelled by the record below.
-/

/-- The fields of `StorageServer` (ns_ss_manager / ns_globals.h) used by
resolution: the stable id and the online flag. -/
structure StorageServer where
  ss_id : Int
  is_online : Bool
  deriving DecidableEq, Repr

/-- The LRU cache (`LRUCache` in ns_cache.h): capacity plus the node list
in MRU-to-LRU order; the hash buckets only accelerate the key lookup and
carry no further state. -/
structure LRUCache where
  capacity : Nat
  entries : List (Str × StorageServer)
  deriving DecidableEq, Repr

/-- `lru_cache_create` (ns_cache.c:55-72): given capacity, empty list. -/
def lru_cache_create (capacity : Nat) : LRUCache := ⟨capacity, []⟩

/-- The bucket search of `lru_cache_put`/`get`/`remove`: whether a node
with this key exists. -/
def lruContains (entries : List (Str × StorageServer)) (k : Str) : Bool :=
  entries.any (fun p => p.1 == k)

/-- `lru_cache_put` (ns_cache.c:74-137): if the key exists, update its
value and move the node to the front; otherwise, if `size >= capacity`,
evict the tail node first, then insert the new node at the front. -/
def lru_cache_put (c : LRUCache) (k : Str) (v : StorageServer) : LRUCache :=
  if lruContains c.entries k then
    { c with entries := (k, v) :: c.entries.eraseP (fun p => p.1 == k) }
  else
    let entries2 :=
      if c.capacity ≤ c.entries.length then c.entries.dropLast else c.entries
    { c with entries := (k, v) :: entries2 }

/-- `lru_cache_get` (ns_cache.c:139-154): on a hit, move the found node to
the front and return its value; on a miss return nothing and leave the
cache unchanged. -/
def lru_cache_get (c : LRUCache) (k : Str) : Option StorageServer × LRUCache :=
  match c.entries.find? (fun p => p.1 == k) with
  | some p => (some p.2, { c with entries := p :: c.entries.eraseP (fun q => q.1 == k) })
  | none => (none, c)

/-- `lru_cache_remove` (ns_cache.c:156-183): remove the node with this key
if present. -/
def lru_cache_remove (c : LRUCache) (k : Str) : LRUCache :=
  { c with entries := c.entries.eraseP (fun p => p.1 == k) }

/-- One cache operation, for stating the size invariant over arbitrary
operation sequences. -/
inductive CacheOp where
  | put (k : Str) (v : StorageServer)
  | get (k : Str)
  | remove (k : Str)

/-- Apply one cache operation to the cache state. -/
def lru_apply_op (c : LRUCache) : CacheOp → LRUCache
  | .put k v => lru_cache_put c k v
  | .get k => (lru_cache_get c k).2
  | .remove k => lru_cache_remove c k

/-- Apply a sequence of cache operations. -/
def lru_apply_ops (c : LRUCache) (ops : List CacheOp) : LRUCache :=
  ops.foldl lru_apply_op c

lemma lruContains_length (entries : List (Str × StorageServer)) (k : Str)
    (h : lruContains entries k = true) :
    (entries.eraseP (fun p => p.1 == k)).length + 1 = entries.length := by
  obtain ⟨x, hmem, hx⟩ := List.any_eq_true.mp h
  exact List.length_eraseP_add_one hmem hx

lemma lru_apply_op_capacity (c : LRUCache) (op : CacheOp) :
    (lru_apply_op c op).capacity = c.capacity := by
  cases op with
  | put k v =>
      simp only [lru_apply_op, lru_cache_put]
      split <;> rfl
  | get k =>
      simp only [lru_apply_op, lru_cache_get]
      split <;> rfl
  | remove k => rfl

lemma lru_apply_op_length (c : LRUCache) (op : CacheOp)
    (hcap : 0 < c.capacity) (hle : c.entries.length ≤ c.capacity) :
    (lru_apply_op c op).entries.length ≤ c.capacity := by
  cases op with
  | put k v =>
      simp only [lru_apply_op, lru_cache_put]
      by_cases hc : lruContains c.entries k
      · rw [if_pos hc]
        have := lruContains_length c.entries k hc
        simp only [List.length_cons]
        omega
      · rw [if_neg hc]
        by_cases hfull : c.capacity ≤ c.entries.length
        · simp only [hfull, if_true, List.length_cons, List.length_dropLast]
          omega
        · simp only [hfull, if_false, List.length_cons]
          omega
  | get k =>
      rcases hf : c.entries.find? (fun p => p.1 == k) with _ | p
      · simp only [lru_apply_op, lru_cache_get, hf]
        exact hle
      · simp only [lru_apply_op, lru_cache_get, hf]
        have hmem := List.mem_of_find?_eq_some hf
        have hx := List.find?_some hf
        have := List.length_eraseP_add_one (p := fun q => q.1 == k) hmem
          (by simpa using hx)
        simp only [List.length_cons]
        omega
  | remove k =>
      simp only [lru_apply_op, lru_cache_remove]
      have := (List.eraseP_sublist c.entries
        (p := fun p => p.1 == k)).length_le
      omega

lemma lru_apply_ops_length (ops : List CacheOp) (c : LRUCache)
    (hcap : 0 < c.capacity) (hle : c.entries.length ≤ c.capacity) :
    (lru_apply_ops c ops).entries.length ≤ c.capacity := by
  induction ops generalizing c with
  | nil => exact hle
  | cons op rest ih =>
      have h1 := lru_apply_op_length c op hcap hle
      have h2 := lru_apply_op_capacity c op
      have := ih (lru_apply_op c op) (by omega) (by omega)
      simpa [lru_apply_ops, h2] using this

/-- Claim C9: the NS lookup cache is an LRU of capacity 128 — after any
sequence of put/get/remove operations from the empty 128-cache the size
never exceeds 128; a get that hits moves the found node to the MRU head;
a put of a new key when the cache is full first evicts the tail (LRU)
node; and a put of an existing key updates its value and moves it to the
MRU head without evicting anything. -/
theorem c9_lru_cache_128 :
    (∀ ops : List CacheOp,
      (lru_apply_ops (lru_cache_create 128) ops).entries.length ≤ 128) ∧
    (∀ (c : LRUCache) (k : Str) (p : Str × StorageServer),
      c.entries.find? (fun q => q.1 == k) = some p →
      lru_cache_get c k =
        (some p.2, { c with entries := p :: c.entries.eraseP (fun q => q.1 == k) })) ∧
    (∀ (c : LRUCache) (k : Str) (v : StorageServer),
      lruContains c.entries k = false → c.capacity ≤ c.entries.length →
      (lru_cache_put c k v).entries = (k, v) :: c.entries.dropLast) ∧
    (∀ (c : LRUCache) (k : Str) (v : StorageServer),
      lruContains c.entries k = true →
      (lru_cache_put c k v).entries =
        (k, v) :: c.entries.eraseP (fun q => q.1 == k) ∧
      (lru_cache_put c k v).entries.length = c.entries.length) := by
  refine ⟨?_, ?_, ?_, ?_⟩
  · intro ops
    exact lru_apply_ops_length ops (lru_cache_create 128) (by decide) (by decide)
  · intro c k p hf
    simp only [lru_cache_get, hf]
  · intro c k v hno hfull
    simp only [lru_cache_put, hno, Bool.false_eq_true, if_false, hfull, if_true]
  · intro c k v hyes
    refine ⟨by simp only [lru_cache_put, hyes, if_true], ?_⟩
    simp only [lru_cache_put, hyes, if_true, List.length_cons]
    have := lruContains_length c.entries k hyes
    omega

/-- Witness for C9 at concrete inputs: a singleton op sequence respects the
bound; a get of "b" in a 2-entry cache promotes it to the head; a put of a
new key "c" into the full 2-cache evicts the tail "b"; a put of the
existing key "a" updates in place keeping size 2. -/
theorem c9_lru_cache_128_witness :
    (lru_apply_ops (lru_cache_create 128)
      [CacheOp.put "a".data ⟨1, true⟩]).entries.length ≤ 128 ∧
    lru_cache_get ⟨2, [("a".data, ⟨1, true⟩), ("b".data, ⟨2, true⟩)]⟩ "b".data =
      (some ⟨2, true⟩,
       ⟨2, [("b".data, ⟨2, true⟩), ("a".data, ⟨1, true⟩)]⟩) ∧
    (lru_cache_put ⟨2, [("a".data, ⟨1, true⟩), ("b".data, ⟨2, true⟩)]⟩
        "c".data ⟨3, true⟩).entries =
      [("c".data, ⟨3, true⟩), ("a".data, ⟨1, true⟩)] ∧
    (lru_cache_put ⟨2, [("a".data, ⟨1, true⟩), ("b".data, ⟨2, true⟩)]⟩
        "a".data ⟨9, false⟩).entries.length = 2 := by
  refine ⟨c9_lru_cache_128.1 _, ?_, ?_, ?_⟩
  · have h := c9_lru_cache_128.2.1
      ⟨2, [("a".data, ⟨1, true⟩), ("b".data, ⟨2, true⟩)]⟩ "b".data
      ("b".data, ⟨2, true⟩) (by decide)
    rw [h]
    rfl
  · have h := c9_lru_cache_128.2.2.1
      ⟨2, [("a".data, ⟨1, true⟩), ("b".data, ⟨2, true⟩)]⟩ "c".data ⟨3, true⟩
      (by decide) (by decide)
    rw [h]
    rfl
  · have h := (c9_lru_cache_128.2.2.2
      ⟨2, [("a".data, ⟨1, true⟩), ("b".data, ⟨2, true⟩)]⟩ "a".data ⟨9, false⟩
      (by decide)).2
    rw [h]
    rfl

/-!
## ADDACCESS / GRANTACCESS permission strings (claim C3)

`handle_access_cmd` (ns_handler.c:467-520) checks ownership and target
existence, then — for MSG_C2N_ACCESS_ADD — stores
`perm_str = (perm_flag == 'W') ? "read-write" : "read"` via
`user_ht_add_permission` (ns_access.c:303-322).  The two-level
double-hashed tables are modelled as association lists (outer: user to
inner table; inner: filename to perms); a table's live-entry `count` is
the list length.  Both levels keep the load-factor guard that is the
first statement of `file_ht_insert` / `user_ht_insert`: the insertion —
even an overwrite of an existing entry — is refused outright when
`count >= size / 2`, with fixed sizes 11 (inner) and 101 (outer), never
resized; on refusal `user_ht_add_permission` returns without storing
anything.
-/

/-- `INITIAL_USER_TABLE_SIZE` (ns_access.c:15): outer table size, 101. -/
def INITIAL_USER_TABLE_SIZE : Nat := 101

/-- `INITIAL_FILE_TABLE_SIZE` (ns_access.c:16): inner table size, 11. -/
def INITIAL_FILE_TABLE_SIZE : Nat := 11

/-- The access table: each user maps to their (filename, perms) list. -/
def AccessTable := List (Str × List (Str × Str))

/-- `file_ht_insert` (ns_access.c:136-168): refuse when
`count >= size / 2` (the guard precedes the slot search, so it also
blocks overwrites); otherwise overwrite the perms of an existing
filename entry or add a fresh one. -/
def file_ht_insert (files : List (Str × Str)) (filename perms : Str) :
    Option (List (Str × Str)) :=
  if INITIAL_FILE_TABLE_SIZE / 2 ≤ files.length then none
  else if files.any (fun e => e.1 == filename) then
    some ((filename, perms) :: files.eraseP (fun e => e.1 == filename))
  else some ((filename, perms) :: files)

/-- `user_ht_search` (ns_access.c:288-296): the user's inner table. -/
def user_ht_find (t : AccessTable) (username : Str) :
    Option (List (Str × Str)) :=
  (t.find? (fun e => e.1 == username)).map Prod.snd

/-- `user_ht_insert` (ns_access.c:255-287) at its only call site (the
user was not found): refuse when `count >= size / 2`; otherwise add the
user with a fresh empty inner table. -/
def user_ht_insert (t : AccessTable) (username : Str) : Option AccessTable :=
  if INITIAL_USER_TABLE_SIZE / 2 ≤ t.length then none
  else some ((username, []) :: t)

/-- Replacing one user's inner table (the C mutates it in place). -/
def user_ht_set (t : AccessTable) (username : Str)
    (files : List (Str × Str)) : AccessTable :=
  (username, files) :: t.eraseP (fun e => e.1 == username)

/-- `user_ht_add_permission` (ns_access.c:303-322): look the user up,
creating them first when missing (which can fail at the outer guard);
then `file_ht_insert` the permission (which can fail at the inner
guard).  Either failure leaves the table unchanged — the C function
prints to stderr and returns without storing. -/
def user_ht_add_permission (t : AccessTable) (username filename perms : Str) :
    AccessTable :=
  match user_ht_find t username with
  | some files =>
      match file_ht_insert files filename perms with
      | some files2 => user_ht_set t username files2
      | none => t
  | none =>
      match user_ht_insert t username with
      | none => t
      | some t2 =>
          match file_ht_insert [] filename perms with
          | some files2 => user_ht_set t2 username files2
          | none => t2

/-- `user_ht_get_permission` (ns_access.c:323-329): the stored permission
string for (user, filename), if any. -/
def user_ht_get_permission (t : AccessTable) (username filename : Str) :
    Option Str :=
  match user_ht_find t username with
  | some files => (files.find? (fun e => e.1 == filename)).map Prod.snd
  | none => none

/-- The permission string chosen by `handle_access_cmd`
(ns_handler.c:490): `"read-write"` for flag 'W', otherwise `"read"`. -/
def ns_access_add_perm_string (perm_flag : Char) : Str :=
  if perm_flag = 'W' then "read-write".data else "read".data

/-- The ACCESS_ADD branch of `handle_access_cmd` (ns_handler.c:487-497),
after the owner and target-existence checks passed. -/
def handle_access_add (t : AccessTable) (target filename : Str)
    (perm_flag : Char) : AccessTable :=
  user_ht_add_permission t target filename (ns_access_add_perm_string perm_flag)

lemma user_ht_get_set (t : AccessTable) (username filename perms : Str)
    (files : List (Str × Str)) :
    user_ht_get_permission (user_ht_set t username ((filename, perms) :: files))
      username filename = some perms := by
  simp [user_ht_get_permission, user_ht_find, user_ht_set, List.find?_cons]

/-- Counterexample to claim C3 as stated: ADDACCESS -R stores the string
"read", not "r", and "read" is not a subset of the letters {r, w, o}. -/
theorem c3_counterexample :
    user_ht_get_permission
        (handle_access_add [] "bob".data "f".data 'R') "bob".data "f".data =
      some "read".data ∧
    some ("read".data) ≠ some ("r".data) ∧
    ¬(∀ ch ∈ "read".data, ch = 'r' ∨ ch = 'w' ∨ ch = 'o') := by
  decide

/-- Claim C3 (amended): ADDACCESS/GRANTACCESS by the owner with flag -R
(resp. -W) sets the target's entry for the file to the string "read"
(resp. "read-write") provided the insertion passes the load-factor
guards — the target's inner table holds fewer than
`INITIAL_FILE_TABLE_SIZE / 2 = 5` entries (and, for a not-yet-known
target, the outer table holds fewer than 50 users); at or above those
bounds the insertion is silently refused and the table is unchanged.
The stored strings contain the letter r (resp. r and w) and not o, so
the strchr-based permission checks for r/w/o treat them exactly like
"r" / "rw". -/
theorem c3_access_add_strings (t : AccessTable) (target filename : Str) :
    (∀ files, user_ht_find t target = some files →
      files.length < INITIAL_FILE_TABLE_SIZE / 2 →
      user_ht_get_permission (handle_access_add t target filename 'R')
          target filename = some "read".data ∧
      user_ht_get_permission (handle_access_add t target filename 'W')
          target filename = some "read-write".data) ∧
    (∀ files flag, user_ht_find t target = some files →
      INITIAL_FILE_TABLE_SIZE / 2 ≤ files.length →
      handle_access_add t target filename flag = t) ∧
    (user_ht_find t target = none →
      t.length < INITIAL_USER_TABLE_SIZE / 2 →
      user_ht_get_permission (handle_access_add t target filename 'R')
          target filename = some "read".data ∧
      user_ht_get_permission (handle_access_add t target filename 'W')
          target filename = some "read-write".data) ∧
    (∀ flag, user_ht_find t target = none →
      INITIAL_USER_TABLE_SIZE / 2 ≤ t.length →
      handle_access_add t target filename flag = t) ∧
    ('r' ∈ "read".data ∧ 'w' ∉ "read".data ∧ 'o' ∉ "read".data ∧
     'r' ∈ "read-write".data ∧ 'w' ∈ "read-write".data ∧
     'o' ∉ "read-write".data) := by
  have hR : ns_access_add_perm_string 'R' = "read".data := rfl
  have hW : ns_access_add_perm_string 'W' = "read-write".data := rfl
  refine ⟨?_, ?_, ?_, ?_, by decide⟩
  · intro files hfind hroom
    have hins : ∀ perms : Str, ∃ files2,
        file_ht_insert files filename perms =
          some ((filename, perms) :: files2) := by
      intro perms
      unfold file_ht_insert
      rw [if_neg (by omega)]
      by_cases hany : files.any (fun e => e.1 == filename)
      · exact ⟨_, by rw [if_pos hany]⟩
      · exact ⟨_, by rw [if_neg hany]⟩
    constructor
    · obtain ⟨files2, h2⟩ := hins "read".data
      simp only [handle_access_add, hR, user_ht_add_permission, hfind, h2]
      exact user_ht_get_set t target filename "read".data files2
    · obtain ⟨files2, h2⟩ := hins "read-write".data
      simp only [handle_access_add, hW, user_ht_add_permission, hfind, h2]
      exact user_ht_get_set t target filename "read-write".data files2
  · intro files flag hfind hfull
    have hnone : file_ht_insert files filename
        (ns_access_add_perm_string flag) = none := by
      unfold file_ht_insert
      rw [if_pos hfull]
    simp only [handle_access_add, user_ht_add_permission, hfind, hnone]
  · intro hmiss hroom
    have hui : user_ht_insert t target = some ((target, []) :: t) := by
      unfold user_ht_insert
      rw [if_neg (by omega)]
    have hfi : ∀ perms : Str,
        file_ht_insert [] filename perms = some [(filename, perms)] :=
      fun _ => rfl
    constructor
    · simp only [handle_access_add, hR, user_ht_add_permission, hmiss, hui, hfi]
      exact user_ht_get_set ((target, []) :: t) target filename "read".data []
    · simp only [handle_access_add, hW, user_ht_add_permission, hmiss, hui, hfi]
      exact user_ht_get_set ((target, []) :: t) target filename "read-write".data []
  · intro flag hmiss hfull
    have hui : user_ht_insert t target = none := by
      unfold user_ht_insert
      rw [if_pos hfull]
    simp only [handle_access_add, user_ht_add_permission, hmiss, hui]

/-- Witness for C3 at concrete tables: known user "bob" with an empty
inner table receives "read"; a "bob" already holding 5 entries (the
inner guard bound) keeps his table unchanged by ADDACCESS -W. -/
theorem c3_access_add_strings_witness :
    user_ht_get_permission
        (handle_access_add [("bob".data, [])] "bob".data "f".data 'R')
        "bob".data "f".data = some "read".data ∧
    handle_access_add
        [("bob".data,
          [("a".data, "read".data), ("b".data, "read".data),
           ("c".data, "read".data), ("d".data, "read".data),
           ("e".data, "read".data)])]
        "bob".data "f".data 'W' =
      [("bob".data,
        [("a".data, "read".data), ("b".data, "read".data),
         ("c".data, "read".data), ("d".data, "read".data),
         ("e".data, "read".data)])] := by
  constructor
  · exact ((c3_access_add_strings [("bob".data, [])] "bob".data "f".data).1
      [] rfl (by decide)).1
  · exact (c3_access_add_strings _ "bob".data "f".data).2.1
      [("a".data, "read".data), ("b".data, "read".data),
       ("c".data, "read".data), ("d".data, "read".data),
       ("e".data, "read".data)] 'W' rfl (by decide)

/-!
## File-to-SS resolution (claim C8)

`find_ss_for_file` (ns_ss_manager.c:572-627): consult the LRU cache under
`owner:filename`; a hit whose server is online is returned directly; on a
miss or an offline cached server, look up the file map, prefer the online
primary (repopulating the cache), fall back to the backup id when set,
and fail otherwise.  The NS handler turns a failed resolution into the
"File not found or Storage Server is offline." error (ns_handler.c:319).
-/

/-- A file-map entry (`FileMapNode` in ns_file_map.h): the primary and
backup SS ids; `backup_ss_id = -1` means no backup assigned. -/
structure FileMapNode where
  primary_ss_id : Int
  backup_ss_id : Int
  deriving DecidableEq, Repr

/-- NS state used by resolution: the SS list, the file map keyed by
(owner, filename), and the LRU cache. -/
structure NSState where
  ssList : List StorageServer
  fileMap : List ((Str × Str) × FileMapNode)
  cache : LRUCache
  deriving DecidableEq, Repr

/-- The cache key `owner:filename` built by
`snprintf(cache_key, "%s:%s", owner, filename)`. -/
def cacheKey (owner filename : Str) : Str := owner ++ ':' :: filename

/-- `get_ss_by_id`: scan the SS list for the given id. -/
def get_ss_by_id (l : List StorageServer) (i : Int) : Option StorageServer :=
  l.find? (fun s => s.ss_id == i)

/-- `file_map_table_search`: the file-map entry for (owner, filename). -/
def file_map_table_search (m : List ((Str × Str) × FileMapNode))
    (owner filename : Str) : Option FileMapNode :=
  (m.find? (fun e => e.1 == (owner, filename))).map Prod.snd

/-- Step 4 of `find_ss_for_file` (ns_ss_manager.c:614-624): when the
primary is down, try the backup id if set; return it only when online. -/
def find_ss_backup (st : NSState) (node : FileMapNode) :
    Option StorageServer × NSState :=
  if node.backup_ss_id = -1 then (none, st)
  else
    match get_ss_by_id st.ssList node.backup_ss_id with
    | some b => if b.is_online then (some b, st) else (none, st)
    | none => (none, st)

/-- Steps 2-4 of `find_ss_for_file` (ns_ss_manager.c:589-627): file-map
lookup, online-primary preference with cache repopulation, backup
fallback. -/
def find_ss_via_map (st : NSState) (owner filename key : Str) :
    Option StorageServer × NSState :=
  match file_map_table_search st.fileMap owner filename with
  | none => (none, st)
  | some node =>
    match get_ss_by_id st.ssList node.primary_ss_id with
    | some prim =>
        if prim.is_online then
          (some prim, { st with cache := lru_cache_put st.cache key prim })
        else find_ss_backup st node
    | none => find_ss_backup st node

/-- `find_ss_for_file` (ns_ss_manager.c:572-627): cache consultation (a
hit always promotes the node to MRU), then the map-based resolution on a
miss or an offline cached server. -/
def find_ss_for_file (st : NSState) (owner filename : Str) :
    Option StorageServer × NSState :=
  let key := cacheKey owner filename
  let r := lru_cache_get st.cache key
  let st1 : NSState := { st with cache := r.2 }
  match r.1 with
  | some ss =>
      if ss.is_online then (some ss, st1)
      else find_ss_via_map st1 owner filename key
  | none => find_ss_via_map st1 owner filename key

/-- The NS handler's use of the resolution (ns_handler.c:317-319): a
failed resolution is reported to the client as "File not found or Storage
Server is offline.". -/
def resolve_ss_for_client (st : NSState) (owner filename : Str) :
    Except Str (StorageServer × NSState) :=
  match find_ss_for_file st owner filename with
  | (some ss, st2) => .ok (ss, st2)
  | (none, _) => .error ("File not found or Storage Server is offline.".data)

lemma find_ss_backup_none (st : NSState) (node : FileMapNode)
    (h : node.backup_ss_id = -1 ∨
      get_ss_by_id st.ssList node.backup_ss_id = none ∨
      ∃ b, get_ss_by_id st.ssList node.backup_ss_id = some b ∧
        b.is_online = false) :
    find_ss_backup st node = (none, st) := by
  rcases h with h | h | ⟨b, hb, hboff⟩
  · simp [find_ss_backup, h]
  · by_cases hid : node.backup_ss_id = -1
    · simp [find_ss_backup, hid]
    · simp [find_ss_backup, hid, h]
  · by_cases hid : node.backup_ss_id = -1
    · simp [find_ss_backup, hid]
    · simp [find_ss_backup, hid, hb, hboff]

lemma find_ss_via_map_primary_down (st : NSState) (owner filename key : Str)
    (node : FileMapNode)
    (hsearch : file_map_table_search st.fileMap owner filename = some node)
    (hprim : get_ss_by_id st.ssList node.primary_ss_id = none ∨
      ∃ prim, get_ss_by_id st.ssList node.primary_ss_id = some prim ∧
        prim.is_online = false) :
    find_ss_via_map st owner filename key = find_ss_backup st node := by
  rcases hprim with h | ⟨prim, hp, hpoff⟩
  · simp [find_ss_via_map, hsearch, h]
  · simp [find_ss_via_map, hsearch, hp, hpoff]

/-- Claim C8: on a resolution that misses the cache or whose cached server
is offline — (a) an existing file-map entry with an online primary returns
that primary and repopulates the cache under `owner:filename`; (b) an
offline or unknown primary with a set, online backup returns the backup;
(c) a missing file-map entry fails and the client receives "File not found
or Storage Server is offline."; (d) so does an entry with neither primary
nor backup online. -/
theorem c8_find_ss_resolution (st : NSState) (owner filename : Str)
    (hmiss : (lru_cache_get st.cache (cacheKey owner filename)).1 = none ∨
      ∃ ss, (lru_cache_get st.cache (cacheKey owner filename)).1 = some ss ∧
        ss.is_online = false) :
    (∀ node prim,
      file_map_table_search st.fileMap owner filename = some node →
      get_ss_by_id st.ssList node.primary_ss_id = some prim →
      prim.is_online = true →
      find_ss_for_file st owner filename =
        (some prim,
         { st with cache :=
            (lru_cache_put (lru_cache_get st.cache (cacheKey owner filename)).2
              (cacheKey owner filename) prim) })) ∧
    (∀ node b,
      file_map_table_search st.fileMap owner filename = some node →
      (get_ss_by_id st.ssList node.primary_ss_id = none ∨
        ∃ prim, get_ss_by_id st.ssList node.primary_ss_id = some prim ∧
          prim.is_online = false) →
      node.backup_ss_id ≠ -1 →
      get_ss_by_id st.ssList node.backup_ss_id = some b →
      b.is_online = true →
      find_ss_for_file st owner filename =
        (some b,
         { st with cache := (lru_cache_get st.cache (cacheKey owner filename)).2 })) ∧
    (file_map_table_search st.fileMap owner filename = none →
      (find_ss_for_file st owner filename).1 = none ∧
      resolve_ss_for_client st owner filename =
        .error ("File not found or Storage Server is offline.".data)) ∧
    (∀ node,
      file_map_table_search st.fileMap owner filename = some node →
      (get_ss_by_id st.ssList node.primary_ss_id = none ∨
        ∃ prim, get_ss_by_id st.ssList node.primary_ss_id = some prim ∧
          prim.is_online = false) →
      (node.backup_ss_id = -1 ∨
        get_ss_by_id st.ssList node.backup_ss_id = none ∨
        ∃ b, get_ss_by_id st.ssList node.backup_ss_id = some b ∧
          b.is_online = false) →
      (find_ss_for_file st owner filename).1 = none ∧
      resolve_ss_for_client st owner filename =
        .error ("File not found or Storage Server is offline.".data)) := by
  have hstep : find_ss_for_file st owner filename =
      find_ss_via_map
        { st with cache := (lru_cache_get st.cache (cacheKey owner filename)).2 }
        owner filename (cacheKey owner filename) := by
    rcases hmiss with h | ⟨ss, hss, hoff⟩
    · simp only [find_ss_for_file, h]
    · simp only [find_ss_for_file, hss, hoff, Bool.false_eq_true, if_false]
  refine ⟨?_, ?_, ?_, ?_⟩
  · intro node prim hsearch hprim honline
    rw [hstep]
    simp only [find_ss_via_map, hsearch, hprim, honline, if_true]
  · intro node b hsearch hprim hbid hb honline
    rw [hstep, find_ss_via_map_primary_down
        { st with cache := (lru_cache_get st.cache (cacheKey owner filename)).2 }
        owner filename (cacheKey owner filename) node hsearch hprim]
    simp only [find_ss_backup, if_neg hbid, hb, honline, if_true]
  · intro hsearch
    have hfind : find_ss_for_file st owner filename =
        (none, { st with cache := (lru_cache_get st.cache (cacheKey owner filename)).2 }) := by
      rw [hstep]
      simp only [find_ss_via_map, hsearch]
    exact ⟨by rw [hfind], by simp only [resolve_ss_for_client, hfind]⟩
  · intro node hsearch hprim hback
    have hfind : find_ss_for_file st owner filename =
        (none, { st with cache := (lru_cache_get st.cache (cacheKey owner filename)).2 }) := by
      rw [hstep, find_ss_via_map_primary_down
          { st with cache := (lru_cache_get st.cache (cacheKey owner filename)).2 }
          owner filename (cacheKey owner filename) node hsearch hprim,
        find_ss_backup_none
          { st with cache := (lru_cache_get st.cache (cacheKey owner filename)).2 }
          node hback]
    exact ⟨by rw [hfind], by simp only [resolve_ss_for_client, hfind]⟩

/-- Witness for C8 at concrete states: with an empty cache, one online SS
id 1 and the map entry (u, f) primary 1, resolution returns SS 1; with an
empty file map, resolution fails with the offline error. -/
theorem c8_find_ss_resolution_witness :
    (find_ss_for_file
      ⟨[⟨1, true⟩], [(("u".data, "f".data), ⟨1, -1⟩)], lru_cache_create 128⟩
      "u".data "f".data).1 = some ⟨1, true⟩ ∧
    resolve_ss_for_client ⟨[⟨1, true⟩], [], lru_cache_create 128⟩
      "u".data "f".data =
      .error ("File not found or Storage Server is offline.".data) := by
  constructor
  · have h := (c8_find_ss_resolution
      ⟨[⟨1, true⟩], [(("u".data, "f".data), ⟨1, -1⟩)], lru_cache_create 128⟩
      "u".data "f".data (Or.inl rfl)).1 ⟨1, -1⟩ ⟨1, true⟩ (by decide) (by decide) rfl
    rw [h]
  · exact ((c8_find_ss_resolution
      ⟨[⟨1, true⟩], [], lru_cache_create 128⟩
      "u".data "f".data (Or.inl rfl)).2.2.1 rfl).2
